import Mathlib

/-!
A shallow embedding of the netcheck diagnostics engine (Go backend) and
proofs about its behaviour.  Go strings are modelled as Lean `String`
(internal operations work on `List Char`), Go `float64` quantities of the
token bucket as `ℚ`, Go `int`/`int64` as `Int`, wall-clock instants as `ℚ`
seconds, and Go maps together with their iteration order as association
lists.  Network and library side effects (HTTP requests, DNS lookups,
XML unmarshalling) are supplied by explicit environment records; the code
that consumes their results is translated directly from the source.
-/

namespace NetCheck

/-! ## Go string helpers (strings.TrimPrefix, strings.Split(s,"/")[0]) -/

/-- Model of Go `strings.TrimPrefix` on character lists. -/
def goTrim (l pre : List Char) : List Char :=
  if pre.isPrefixOf l then l.drop pre.length else l

/-- Model of Go `strings.Split(s, "/")[0]`: everything before the first slash. -/
def takeUntilSlash : List Char → List Char
  | [] => []
  | c :: rest => if c = '/' then [] else c :: takeUntilSlash rest

/-- The domain-cleaning idiom used throughout the source:
`strings.TrimPrefix(.., "https://")`, `strings.TrimPrefix(.., "http://")`,
`strings.Split(.., "/")[0]`. -/
def cleanHost (s : String) : String :=
  String.mk (takeUntilSlash (goTrim (goTrim s.toList "https://".toList) "http://".toList))

/-- Whether `sub` occurs as a contiguous run inside `l` (Go `strings.Contains`). -/
def hasSub (sub : List Char) : List Char → Bool
  | [] => sub.isEmpty
  | c :: rest => sub.isPrefixOf (c :: rest) || hasSub sub rest

/-- Go `strings.Contains(strings.ToLower(s), sub)` on strings. -/
def containsLower (s sub : String) : Bool :=
  hasSub sub.toList (s.toList.map Char.toLower)

/-! ## HSTS parsing (`parseHSTSHeader`, lines 653-700) -/

/-- `HSTSInfo` struct. -/
structure HSTSInfo where
  Enabled : Bool := false
  MaxAge : Int := 0
  IncludeSubDomains : Bool := false
  Preload : Bool := false
  Directive : String := ""
  Details : String := ""
deriving Repr, DecidableEq

/-- Digit run at the head of a character list (regex `\d+`, greedy). -/
def takeDigits (l : List Char) : List Char := l.takeWhile (fun c => c.isDigit)

/-- Decimal value of a digit list (`strconv.Atoi` on a nonempty digit run). -/
def digitsVal (l : List Char) : Nat := l.foldl (fun a c => a * 10 + (c.toNat - '0'.toNat)) 0

/-- Leftmost match of the Go regex `max-age=(\d+)`: the first occurrence of
`max-age=` that is followed by at least one digit; returns the greedy digit
run of the capture group. -/
def findMaxAge : List Char → Option (List Char)
  | [] => none
  | c :: rest =>
    if "max-age=".toList.isPrefixOf (c :: rest) &&
        (((c :: rest).drop 8).headD ' ').isDigit then
      some (takeDigits ((c :: rest).drop 8))
    else
      findMaxAge rest

/-- `parseHSTSHeader` translated from the source: empty header yields a
disabled zero report; otherwise the report is enabled, `max-age=(\d+)` is
matched for the max-age, and case-insensitive substring checks set the
`includesubdomains` and `preload` flags; a human-readable details string is
synthesized. -/
def parseHSTSHeader (header : String) : HSTSInfo :=
  if header = "" then
    { Details := "HSTS header not present" }
  else
    let maxAge : Int :=
      match findMaxAge header.toList with
      | some ds => (digitsVal ds : Int)
      | none => 0
    let incSub := containsLower header "includesubdomains"
    let preld := containsLower header "preload"
    let details :=
      [ "Max-Age: " ++ toString maxAge ++ " seconds",
        if incSub then "Includes SubDomains: Yes" else "Includes SubDomains: No" ]
      ++ (if preld then ["Preload: Yes"] else [])
    { Enabled := true
      MaxAge := maxAge
      IncludeSubDomains := incSub
      Preload := preld
      Directive := header
      Details := String.intercalate ", " details }

/-! ## Association-list model of Go maps -/

/-- Go map assignment `m[k] = v`: replace the binding in place, or append. -/
def mapSet {α : Type} : List (String × α) → String → α → List (String × α)
  | [], k, v => [(k, v)]
  | (k', v') :: rest, k, v =>
    if k' = k then (k, v) :: rest else (k', v') :: mapSet rest k v

/-- Go map read `m[k]`. -/
def mapGet {α : Type} : List (String × α) → String → Option α
  | [], _ => none
  | (k', v') :: rest, k => if k' = k then some v' else mapGet rest k

/-! ## Cache keys (`cacheKey`, lines 442-461)

The Go code ranges over `map[string]string`; the iteration order Go hands
to that loop is modelled as the order of the association list. -/

/-- `cacheKey` translated from the source: route, then `?`, then
`k=v` pairs joined by `&` in iteration order (a `first` flag suppresses the
separator before the first pair). -/
def cacheKey (route : String) (q : List (String × String)) : String :=
  if q.length > 0 then
    (q.foldl
      (fun (acc : String × Bool) kv =>
        (acc.1 ++ (if acc.2 then "" else "&") ++ kv.1 ++ "=" ++ kv.2, false))
      (route ++ "?", true)).1
  else route

/-! ## Rate limiter (`tokenBucket`, `RateLimiter.allow`, lines 250-308)

Go `float64` token counts are modelled as `ℚ`; `time.Time` instants as `ℚ`
seconds, with `now` supplied by the caller. -/

/-- `tokenBucket` struct. -/
structure tokenBucket where
  capacity : Int
  tokens : ℚ
  refillRate : ℚ
  lastRefill : ℚ
deriving Repr, DecidableEq

/-- `RateLimiter` struct (bucket map keyed by `ip|route`). -/
structure RateLimiter where
  buckets : List (String × tokenBucket)
  perRoute : List (String × Int)
  defaultRpm : Int
deriving Repr, DecidableEq

/-- `NewRateLimiter`. -/
def NewRateLimiter (defaultRpm : Int) (perRoute : List (String × Int)) : RateLimiter :=
  { buckets := [], perRoute := perRoute, defaultRpm := defaultRpm }

/-- `minFloat`. -/
def minFloat (a b : ℚ) : ℚ := if a < b then a else b

/-- The rpm resolution at the top of `allow`: a per-route override if one
exists, the global default otherwise. -/
def resolveRpm (rl : RateLimiter) (route : String) : Int :=
  match mapGet rl.perRoute route with
  | some v => v
  | none => rl.defaultRpm

/-- The bucket lazily created on first use of a key: full at capacity
`rpm`, refilling at `rpm/60` tokens per second. -/
def freshBucket (rpm : Int) (now : ℚ) : tokenBucket :=
  { capacity := rpm, tokens := (rpm : ℚ), refillRate := (rpm : ℚ) / 60,
    lastRefill := now }

/-- The refill step of `allow`: when wall-clock time has passed since the
last refill, add `elapsed * refillRate` tokens capped at capacity and
advance the refill timestamp. -/
def refillBucket (b : tokenBucket) (now : ℚ) : tokenBucket :=
  if now - b.lastRefill > 0 then
    { b with
      tokens := minFloat ((b.capacity : ℚ)) (b.tokens + (now - b.lastRefill) * b.refillRate),
      lastRefill := now }
  else b

/-- `RateLimiter.allow` translated from the source: resolve the per-route
rpm (0 or less means unlimited), look up or lazily create the bucket for
`ip|route`, refill proportionally to elapsed time capped at capacity when
any time has passed, then admit and deduct one token if at least one is
available.  Returns the decision and the updated limiter. -/
def RateLimiter.allow (rl : RateLimiter) (now : ℚ) (ip route : String) :
    Bool × RateLimiter :=
  let rpm := resolveRpm rl route
  if rpm ≤ 0 then (true, rl)
  else
    let key := ip ++ "|" ++ route
    let b := (mapGet rl.buckets key).getD (freshBucket rpm now)
    let b1 := refillBucket b now
    if b1.tokens ≥ 1 then
      (true, { rl with buckets := mapSet rl.buckets key { b1 with tokens := b1.tokens - 1 } })
    else
      (false, { rl with buckets := mapSet rl.buckets key b1 })

/-- The range invariant of a live token bucket: the token count stays
between 0 and the bucket's capacity, and the refill rate is nonnegative. -/
def bucketWF (b : tokenBucket) : Prop :=
  0 ≤ b.tokens ∧ b.tokens ≤ (b.capacity : ℚ) ∧ 0 ≤ b.refillRate

/-- A sequence of `allow` calls for one `(ip, route)` pair at the given
instants, returning the decisions in order. -/
def allowSeq (rl : RateLimiter) (ip route : String) : List ℚ → List Bool
  | [] => []
  | t :: ts =>
    let r := rl.allow t ip route
    r.1 :: allowSeq r.2 ip route ts

/-- A sequence of `allow` calls with arbitrary instants, client IPs and
routes, returning the final limiter state. -/
def runCalls (rl : RateLimiter) : List (ℚ × String × String) → RateLimiter
  | [] => rl
  | (t, ip, route) :: rest => runCalls (rl.allow t ip route).2 rest

/-! ## `isIPAddress` / Go `net.ParseIP` (lines 647-650)

`net.ParseIP` delegates to `netip.ParseAddr` and additionally rejects any
zoned address, so a string containing `%` never parses.  The field loops of
`netip.parseIPv4` and `netip.parseIPv6` are translated below on character
lists; only validity (parsed address bytes are irrelevant here) is kept. -/

/-- Value of a hex digit, if any. -/
def hexVal (c : Char) : Option Nat :=
  if '0' ≤ c ∧ c ≤ '9' then some (c.toNat - '0'.toNat)
  else if 'a' ≤ c ∧ c ≤ 'f' then some (c.toNat - 'a'.toNat + 10)
  else if 'A' ≤ c ∧ c ≤ 'F' then some (c.toNat - 'A'.toNat + 10)
  else none

/-- `netip.parseIPv4Fields`: four dot-separated decimal octets, one to
three digits each, value at most 255, no leading zero; `val`/`digLen`
accumulate the current field, `pos` counts completed fields. -/
def ipv4Fields : List Char → Nat → Nat → Nat → Bool
  | [], _, _, pos => pos = 3
  | c :: rest, val, digLen, pos =>
    if '0' ≤ c ∧ c ≤ '9' then
      if digLen = 1 ∧ val = 0 then false
      else if val * 10 + (c.toNat - '0'.toNat) > 255 then false
      else ipv4Fields rest (val * 10 + (c.toNat - '0'.toNat)) (digLen + 1) pos
    else if c = '.' then
      if digLen = 0 ∨ rest = [] then false
      else if pos = 3 then false
      else ipv4Fields rest 0 0 (pos + 1)
    else false

/-- The inner hex scan of `netip.parseIPv6`: consume a maximal run of hex
digits accumulating their value; `none` on overflow past `0xffff`. -/
def takeHex : List Char → Nat → Nat → Option (Nat × Nat × List Char)
  | [], acc, off => some (acc, off, [])
  | c :: rest, acc, off =>
    match hexVal c with
    | some d =>
      if acc * 16 + d > 65535 then none else takeHex rest (acc * 16 + d) (off + 1)
    | none => some (acc, off, c :: rest)

/-- The main loop of `netip.parseIPv6`: parse colon-separated 16-bit hex
fields, a single `::` ellipsis, and an optional embedded IPv4 tail; `i`
counts address bytes written, `ell` whether an ellipsis was seen.  Returns
the final `(remaining, i, ell)` on normal exit, `none` on a parse error.
The loop body runs at most 8 times (`i` grows by at least 2 up to 16), so a
fuel of 16 is conservative. -/
def ipv6Loop : Nat → List Char → Nat → Bool → Option (List Char × Nat × Bool)
  | 0, _, _, _ => none
  | fuel + 1, s, i, ell =>
    if 16 ≤ i then some (s, i, ell)
    else
      match takeHex s 0 0 with
      | none => none
      | some (_, off, rest) =>
        if off = 0 then none
        else
          match rest with
          | [] => some ([], i + 2, ell)
          | r0 :: rest1 =>
            if r0 = '.' then
              if (!ell) ∧ i ≠ 12 then none
              else if i + 4 > 16 then none
              else if ipv4Fields s 0 0 0 then some ([], i + 4, ell) else none
            else if r0 = ':' then
              match rest1 with
              | [] => none
              | r1 :: rest2 =>
                if r1 = ':' then
                  if ell then none
                  else
                    match rest2 with
                    | [] => some ([], i + 2, true)
                    | _ => ipv6Loop fuel rest2 (i + 2) true
                else ipv6Loop fuel rest1 (i + 2) ell
            else none

/-- The post-loop checks of `netip.parseIPv6`: the whole string must be
consumed; fewer than 16 bytes requires an ellipsis, a full 16 bytes
forbids one. -/
def ipv6Finish : Option (List Char × Nat × Bool) → Bool
  | none => false
  | some (s, i, ell) => s = [] && (if i < 16 then ell else !ell)

/-- `netip.parseIPv6` validity, specialised to `net.ParseIP` (which rejects
any address carrying a `%` zone). -/
def parseIPv6Chars (l : List Char) : Bool :=
  if l.contains '%' then false
  else if 2 ≤ l.length ∧ l.headD ' ' = ':' ∧ l.tail.headD ' ' = ':' then
    if l.drop 2 = [] then true
    else ipv6Finish (ipv6Loop 16 (l.drop 2) 0 true)
  else ipv6Finish (ipv6Loop 16 l 0 false)

/-- The dispatch scan of `netip.ParseAddr`: first occurrence of `.`, `:`
or `%` decides the branch. -/
def firstSpecial : List Char → Option Char
  | [] => none
  | c :: rest => if c = '.' ∨ c = ':' ∨ c = '%' then some c else firstSpecial rest

/-- `isIPAddress` (Go `net.ParseIP(input) != nil`). -/
def isIPAddress (s : String) : Bool :=
  match firstSpecial s.toList with
  | none => false
  | some c =>
    if c = '.' then ipv4Fields s.toList 0 0 0
    else if c = ':' then parseIPv6Chars s.toList
    else false

/-! ## `CheckIP` (lines 703-772) -/

/-- A resolver result entry: `net.IP`'s string form and whether
`ip.To4() != nil`. -/
structure GoIP where
  str : String
  isV4 : Bool
deriving Repr, DecidableEq

/-- Ambient network environment of `CheckIP`: the outcome of
`net.LookupIP` per hostname.  (The reachability probe `net.Dial`
immediately discards its result in the source, so it is not modelled.) -/
structure IPEnv where
  lookupIP : String → Except String (List GoIP)

/-- `IPInfo` struct. -/
structure IPInfo where
  Input : String := ""
  IsDomain : Bool := false
  ResolvedIPs : List String := []
  IP : String := ""
  Country : String := ""
  Region : String := ""
  City : String := ""
  ISP : String := ""
  Organization : String := ""
  Timezone : String := ""
  Error : String := ""
deriving Repr, DecidableEq

/-- `CheckIP` translated from the source: clean the input, report a literal
IP directly (with placeholder geolocation), otherwise resolve the domain,
keep the IPv4 addresses in resolver order, and use the first one as the
primary IP; resolver failure or an empty IPv4 list populates `Error`. -/
def CheckIP (input : String) (env : IPEnv) : IPInfo :=
  let info : IPInfo := { Input := input }
  let cleanInput := cleanHost input
  if isIPAddress cleanInput then
    { info with
      IsDomain := false
      IP := cleanInput
      Country := "Unknown"
      Region := "Unknown"
      City := "Unknown"
      ISP := "Unknown"
      Organization := "Unknown"
      Timezone := "Unknown" }
  else
    let info := { info with IsDomain := true }
    match env.lookupIP cleanInput with
    | .error e => { info with Error := "Failed to resolve domain: " ++ e }
    | .ok ips =>
      let resolved := (ips.filter (fun ip => ip.isV4)).map (fun ip => ip.str)
      let info := { info with ResolvedIPs := resolved }
      match resolved with
      | v :: _ =>
        { info with
          IP := v
          Country := "Unknown"
          Region := "Unknown"
          City := "Unknown"
          ISP := "Unknown"
          Organization := "Unknown"
          Timezone := "Unknown" }
      | [] => { info with Error := "No IP addresses found for domain" }

/-- A concrete resolver environment: every hostname resolves to the single
IPv4 address 93.184.216.34. -/
def ipEnvW : IPEnv :=
  { lookupIP := fun _ => .ok [{ str := "93.184.216.34", isV4 := true }] }

/-! ## Combined SSL + WebSettings check (`CheckSSLAndWebSettings`, lines 993-1075) -/

/-- Go `strings.HasPrefix`. -/
def goHasPre (s pre : String) : Bool := pre.toList.isPrefixOf s.toList

/-- Go `strings.HasSuffix`. -/
def goHasSuf (s suf : String) : Bool := suf.toList.isSuffixOf s.toList

/-- The scheme-defaulting idiom: prepend `https://` when the input carries
no scheme. -/
def ensureScheme (domain : String) : String :=
  if ¬ goHasPre domain "https://" ∧ ¬ goHasPre domain "http://" then
    "https://" ++ domain
  else domain

/-- The public key of a certificate, as far as the source looks at it: an
RSA key with its modulus bit length, or anything else. -/
inductive PubKey
  | rsa (bitLen : Nat)
  | other
deriving Repr, DecidableEq

/-- The certificate fields read by the source (`x509.Certificate` with the
distinguished names and algorithm names already rendered to strings;
timestamps as Unix seconds). -/
structure Certificate where
  issuer : String
  subject : String
  notBefore : Int
  notAfter : Int
  serialNumber : String
  signatureAlg : String
  publicKeyAlg : String
  pubKey : PubKey
deriving Repr, DecidableEq

/-- An HTTP response as far as the source looks at it; `tls` is `none`
when `resp.TLS == nil`. -/
structure HTTPResponse where
  statusCode : Int
  headers : List (String × List String)
  contentLength : Int
  tls : Option (List Certificate)
deriving Repr, DecidableEq

/-- Go `resp.Header.Get(key)`: first value of the (already canonical)
key, or the empty string. -/
def headerGet (hs : List (String × List String)) (k : String) : String :=
  match mapGet hs k with
  | some (v :: _) => v
  | _ => ""

/-- `SSLInfo` struct. -/
structure SSLInfo where
  Domain : String := ""
  Valid : Bool := false
  Issuer : String := ""
  Subject : String := ""
  NotBefore : Int := 0
  NotAfter : Int := 0
  DaysUntilExpiry : Int := 0
  SerialNumber : String := ""
  SignatureAlg : String := ""
  PublicKeyAlg : String := ""
  KeySize : Int := 0
  Error : String := ""
deriving Repr, DecidableEq

/-- `WebSettingsInfo` struct. -/
structure WebSettingsInfo where
  Domain : String := ""
  StatusCode : Int := 0
  Headers : List (String × String) := []
  Server : String := ""
  ContentType : String := ""
  ContentLength : Int := 0
  LastModified : String := ""
  ETag : String := ""
  RedirectURL : String := ""
  HSTS : HSTSInfo := {}
  ResponseTime : Int := 0
  Error : String := ""
deriving Repr, DecidableEq

/-- `CombinedResult` struct. -/
structure CombinedResult where
  SSL : SSLInfo := {}
  WebSettings : WebSettingsInfo := {}
deriving Repr, DecidableEq

/-- Ambient environment of the combined check: the outcome of
`http.NewRequest("HEAD", fullURL, nil)` (fails on a malformed URL), the
outcome of `httpClient.Do`, the measured response time, and the wall clock
(Unix seconds) used for the days-until-expiry derivation. -/
structure SSLWebEnv where
  newRequestErr : Option String
  doResult : Except String HTTPResponse
  responseTimeMs : Int
  now : Int

/-- `CheckSSLAndWebSettings` translated from the source: one request
yields both reports.  A request-creation failure sets both error fields
(and nothing else); a connection failure sets both domains and both error
fields; on success the response headers populate the web-settings report
and the TLS peer certificate (when present) populates the certificate
report, an absent certificate yielding an error in the SSL report only. -/
def CheckSSLAndWebSettings (domain : String) (env : SSLWebEnv) : CombinedResult :=
  let fullURL := ensureScheme domain
  let cleanDomain := cleanHost fullURL
  match env.newRequestErr with
  | some e =>
    let msg := "Failed to create request: " ++ e
    { WebSettings := { Error := msg }, SSL := { Error := msg } }
  | none =>
    match env.doResult with
    | .error e =>
      let msg := "Failed to connect: " ++ e
      { WebSettings :=
          { ResponseTime := env.responseTimeMs, Domain := cleanDomain, Error := msg }
        SSL := { Domain := cleanDomain, Error := msg } }
    | .ok resp =>
      let ws : WebSettingsInfo :=
        { Domain := cleanDomain
          ResponseTime := env.responseTimeMs
          StatusCode := resp.statusCode
          Server := headerGet resp.headers "Server"
          ContentType := headerGet resp.headers "Content-Type"
          LastModified := headerGet resp.headers "Last-Modified"
          ETag := headerGet resp.headers "ETag"
          ContentLength := resp.contentLength
          RedirectURL :=
            if 300 ≤ resp.statusCode ∧ resp.statusCode < 400 then
              headerGet resp.headers "Location"
            else ""
          HSTS := parseHSTSHeader (headerGet resp.headers "Strict-Transport-Security")
          Headers := resp.headers.map (fun kv => (kv.1, String.intercalate ", " kv.2)) }
      let ssl : SSLInfo :=
        match resp.tls with
        | some (cert :: _) =>
          { Domain := cleanDomain
            Valid := true
            Issuer := cert.issuer
            Subject := cert.subject
            NotBefore := cert.notBefore
            NotAfter := cert.notAfter
            DaysUntilExpiry := (cert.notAfter - env.now) / 86400
            SerialNumber := cert.serialNumber
            SignatureAlg := cert.signatureAlg
            PublicKeyAlg := cert.publicKeyAlg
            KeySize := match cert.pubKey with | .rsa n => (n : Int) | .other => 0 }
        | _ => { Domain := cleanDomain, Error := "No TLS certificate found" }
      { SSL := ssl, WebSettings := ws }

/-! ## Open Graph image URL resolution (`CheckOGImage`, lines 1796-1825
and 1939-1951)

The regex extraction of the tags is not modelled; the extracted image URL
enters as an argument, and the resolution flow below is translated from
the source. -/

/-- Fetch outcomes seen by `CheckOGImage`: the initial `Get(targetURL)`
and, when attempted, the plain-HTTP retry. -/
structure OGFetchEnv where
  httpsErr : Option String
  httpErr : Option String
deriving Repr, DecidableEq

/-- The relative-image-URL resolution step (lines 1941-1951): a
protocol-relative URL gets the literal `https:` scheme, an absolute-path
URL is joined to `https://` plus the cleaned host, a bare relative URL is
joined to the page URL, and an absolute URL is kept as is. -/
def resolveImageURL (targetURL cleanDomain imageURL : String) : String :=
  if goHasPre imageURL "//" then "https:" ++ imageURL
  else if goHasPre imageURL "/" then "https://" ++ cleanDomain ++ imageURL
  else if ¬ goHasPre imageURL "http://" ∧ ¬ goHasPre imageURL "https://" then
    if goHasSuf targetURL "/" then targetURL ++ imageURL
    else targetURL ++ "/" ++ imageURL
  else imageURL

/-- The URL normalisation, host extraction, https→http fallback and image
resolution flow of `CheckOGImage`: returns the resolved image URL, or
`none` when both fetches fail (the checker then returns early with only
its error field set, before any image resolution). -/
def ogResolvedImage (url : String) (env : OGFetchEnv) (imageURL : String) :
    Option String :=
  let targetURL := ensureScheme url
  let cleanDomain := cleanHost targetURL
  match env.httpsErr with
  | none => some (resolveImageURL targetURL cleanDomain imageURL)
  | some _ =>
    if goHasPre targetURL "https://" then
      let target2 := "http://" ++ String.mk (goTrim targetURL.toList "https://".toList)
      match env.httpErr with
      | none => some (resolveImageURL target2 cleanDomain imageURL)
      | some _ => none
    else none

/-! ## Sitemap check (`CheckSitemap`, lines 1552-1656) -/

/-- `SitemapURL` struct (a `<url>` entry of a leaf urlset; the float64
`priority` is carried as `ℚ`, never computed with). -/
structure SitemapURL where
  Loc : String := ""
  LastMod : String := ""
  ChangeFreq : String := ""
  Priority : ℚ := 0
deriving Repr, DecidableEq

/-- A `<sitemap>` entry of a `SitemapIndex`. -/
structure SitemapIndexEntry where
  Loc : String := ""
  LastMod : String := ""
deriving Repr, DecidableEq

/-- The two `xml.Unmarshal` outcomes of a fetched body: against the
`sitemapindex` schema and against the `urlset` schema. -/
structure XmlBody where
  asIndex : Except String (List SitemapIndexEntry)
  asUrlset : Except String (List SitemapURL)
deriving Repr

/-- A fetched sitemap response: HTTP status and the `io.ReadAll` outcome
(already paired with its parse outcomes). -/
structure FetchResp where
  statusCode : Int
  body : Except String XmlBody
deriving Repr

/-- Ambient network environment of `CheckSitemap`: the outcome of
`httpClient.Get` per URL. -/
structure SitemapEnv where
  get : String → Except String FetchResp

/-- The fixed ordered list of sitemap locations to try. -/
def sitemapPaths : List String :=
  ["/sitemap.xml", "/sitemap_index.xml", "/sitemap-index.xml", "/sitemaps.xml"]

/-- The loop's break condition: the attempt succeeded with HTTP 200. -/
def attemptOk (a : Except String FetchResp) : Bool :=
  match a with
  | .ok r => r.statusCode = 200
  | .error _ => false

/-- The fetch loop of `CheckSitemap`: for each candidate path try HTTPS
then HTTP, breaking on the first 200; returns the URL of the breaking
attempt (if any) and the response/error of the last attempt executed. -/
def sitemapLoop (cleanDomain : String) (env : SitemapEnv) :
    List String → Except String FetchResp → Option String × Except String FetchResp
  | [], last => (none, last)
  | p :: rest, _ =>
    let u1 := "https://" ++ cleanDomain ++ p
    let a1 := env.get u1
    if attemptOk a1 then (some u1, a1)
    else
      let u2 := "http://" ++ cleanDomain ++ p
      let a2 := env.get u2
      if attemptOk a2 then (some u2, a2)
      else sitemapLoop cleanDomain env rest a2

/-- `SitemapInfo` struct. -/
structure SitemapInfo where
  Domain : String := ""
  SitemapURL : String := ""
  Exists : Bool := false
  Status : String := ""
  IsSitemapIndex : Bool := false
  URLCount : Int := 0
  SubSitemaps : List String := []
  SampleURLs : List String := []
  LastModified : List String := []
  Error : String := ""
deriving Repr, DecidableEq

/-- The leaf-urlset branch of `CheckSitemap`: a urlset with at least one
entry yields the count, the first (at most) 10 locations as samples and
their nonempty lastmod values; otherwise the body failed both schemas and
only the parse-error detail is recorded. -/
def sitemapParseUrlset (info : SitemapInfo) (b : XmlBody) : SitemapInfo :=
  match b.asUrlset with
  | .ok (u0 :: us) =>
    { info with
      IsSitemapIndex := false
      URLCount := (((u0 :: us) : List SitemapURL).length : Int)
      SampleURLs := ((u0 :: us).take 10).map (fun u => u.Loc)
      LastModified := (((u0 :: us).take 10).filter (fun u => u.LastMod != "")).map
        (fun u => u.LastMod) }
  | _ => { info with Error := "Sitemap found but could not parse XML structure" }

/-- `CheckSitemap` translated from the source: clean the domain, run the
fetch loop, report "Not Found" when the last attempt errored, otherwise
record existence and status, then try the index schema first and fall back
to the leaf urlset schema. -/
def CheckSitemap (domain : String) (env : SitemapEnv) : SitemapInfo :=
  let info : SitemapInfo := { Domain := domain }
  let cleanDomain := cleanHost domain
  let fetched := sitemapLoop cleanDomain env sitemapPaths (.error "")
  match fetched.2 with
  | .error e =>
    { info with
      Exists := false
      Status := "Not Found"
      Error := "Failed to find sitemap: " ++ e }
  | .ok resp =>
    let info := { info with
      SitemapURL := fetched.1.getD info.SitemapURL
      Exists := true
      Status := "HTTP " ++ toString resp.statusCode }
    match resp.body with
    | .error e => { info with Error := "Failed to read response: " ++ e }
    | .ok b =>
      match b.asIndex with
      | .ok (e0 :: es) =>
        { info with
          IsSitemapIndex := true
          URLCount := (((e0 :: es) : List SitemapIndexEntry).length : Int)
          SubSitemaps := (e0 :: es).map (fun s => s.Loc) }
      | _ => sitemapParseUrlset info b

/-! ## Aggregator (`handleComprehensive`, lines 2022-2116) -/

/-- `HTTP3Info` struct. -/
structure HTTP3Info where
  Domain : String := ""
  Supported : Bool := false
  Protocol : String := ""
  Status : Int := 0
  Details : String := ""
  Error : String := ""
deriving Repr, DecidableEq

/-- `DNSInfo` struct. -/
structure DNSInfo where
  Domain : String := ""
  IPv4 : List String := []
  IPv6 : List String := []
  CNAME : List String := []
  MX : List String := []
  TXT : List String := []
  NS : List String := []
  Error : String := ""
deriving Repr, DecidableEq

/-- `SPFInfo` struct. -/
structure SPFInfo where
  Configured : Bool := false
  Record : String := ""
  Valid : Bool := false
  Details : String := ""
  Error : String := ""
deriving Repr, DecidableEq

/-- `DKIMInfo` struct. -/
structure DKIMInfo where
  Configured : Bool := false
  Selectors : List String := []
  Valid : Bool := false
  Details : String := ""
  Error : String := ""
deriving Repr, DecidableEq

/-- `DMARCInfo` struct. -/
structure DMARCInfo where
  Configured : Bool := false
  Record : String := ""
  Policy : String := ""
  Valid : Bool := false
  Details : String := ""
  Error : String := ""
deriving Repr, DecidableEq

/-- `BIMIInfo` struct. -/
structure BIMIInfo where
  Configured : Bool := false
  Record : String := ""
  LogoURL : String := ""
  Valid : Bool := false
  Details : String := ""
  Error : String := ""
deriving Repr, DecidableEq

/-- `EmailConfigInfo` struct. -/
structure EmailConfigInfo where
  Domain : String := ""
  SPF : SPFInfo := {}
  DKIM : DKIMInfo := {}
  DMARC : DMARCInfo := {}
  BIMI : BIMIInfo := {}
  Error : String := ""
deriving Repr, DecidableEq

/-- `RobotsTxtInfo` struct. -/
structure RobotsTxtInfo where
  Domain : String := ""
  Exists : Bool := false
  Status : String := ""
  Content : String := ""
  Lines : List String := []
  UserAgents : List String := []
  Disallowed : List String := []
  Allowed : List String := []
  Sitemaps : List String := []
  CrawlDelay : String := ""
  Error : String := ""
deriving Repr, DecidableEq

/-- The `interface{}` payload of a comprehensive result entry. -/
inductive CheckData
  | ssl (v : SSLInfo)
  | webSettings (v : WebSettingsInfo)
  | http3 (v : HTTP3Info)
  | dns (v : DNSInfo)
  | emailConfig (v : EmailConfigInfo)
  | robotsTxt (v : RobotsTxtInfo)
  | sitemap (v : SitemapInfo)
  | meta (timings : List (String × Int)) (domain : String) (totalMs : Int)
deriving Repr, DecidableEq

/-- Ambient environment of the comprehensive handler: the environments of
the two fully modelled checkers, the reports produced by the four network
checkers that are not modelled further (each may carry any error), the
per-task measured durations and the overall wall-clock duration. -/
structure ComprehensiveEnv where
  sslWeb : SSLWebEnv
  sitemapEnv : SitemapEnv
  http3 : HTTP3Info
  dns : DNSInfo
  emailConfig : EmailConfigInfo
  robotsTxt : RobotsTxtInfo
  dCombined : Int
  dHttp3 : Int
  dDns : Int
  dEmail : Int
  dRobots : Int
  dSitemap : Int
  totalMs : Int

/-- The 7 result entries the six concurrent tasks send into the buffered
channel, in goroutine-send order: the combined SSL+WebSettings task sends
two entries (with the same measured duration), every other task one.  The
channel's consumption order is an arbitrary permutation of this list. -/
def comprehensiveEmissions (domain : String) (env : ComprehensiveEnv) :
    List (String × CheckData × Int) :=
  let combined := CheckSSLAndWebSettings domain env.sslWeb
  [("ssl", .ssl combined.SSL, env.dCombined),
   ("web_settings", .webSettings combined.WebSettings, env.dCombined),
   ("http3", .http3 env.http3, env.dHttp3),
   ("dns", .dns env.dns, env.dDns),
   ("email_config", .emailConfig env.emailConfig, env.dEmail),
   ("robots_txt", .robotsTxt env.robotsTxt, env.dRobots),
   ("sitemap", .sitemap (CheckSitemap domain env.sitemapEnv), env.dSitemap)]

/-- The collection loop of `handleComprehensive`: receive the entries in
channel order, insert each into the keyed data map and the timing map,
record the total time, and attach the `_meta` entry. -/
def handleComprehensiveCollect (domain : String)
    (entries : List (String × CheckData × Int)) (totalMs : Int) :
    List (String × CheckData) :=
  let collected := entries.foldl
    (fun (acc : List (String × CheckData) × List (String × Int)) e =>
      (mapSet acc.1 e.1 e.2.1, mapSet acc.2 e.1 e.2.2))
    ([], [])
  let timings := mapSet collected.2 "total" totalMs
  mapSet collected.1 "_meta" (.meta timings domain totalMs)

/-! ## Response cache and the IP handler (`Cache`, lines 389-423;
`handleIP`, lines 1161-1191) -/

/-- `Cache` (the TTL key/value store); entries pair the stored value with
its absolute expiry instant. -/
structure Cache (α : Type) where
  items : List (String × α × ℚ)
deriving Repr, DecidableEq

/-- Go map `delete`. -/
def mapDelete {α : Type} : List (String × α) → String → List (String × α)
  | [], _ => []
  | (k', v') :: rest, k => if k' = k then rest else (k', v') :: mapDelete rest k

/-- `Cache.Get`: a present entry whose expiry has passed is lazily evicted
and reported missing. -/
def Cache.Get {α : Type} (c : Cache α) (now : ℚ) (key : String) :
    Option α × Cache α :=
  match mapGet c.items key with
  | none => (none, c)
  | some (v, expiry) =>
    if now > expiry then (none, { items := mapDelete c.items key })
    else (some v, c)

/-- `Cache.Set`: store under an absolute expiry `now + ttl`. -/
def Cache.Set {α : Type} (c : Cache α) (now : ℚ) (key : String) (v : α) (ttl : ℚ) :
    Cache α :=
  { items := mapSet c.items key (v, now + ttl) }

/-- `routeTTL` (durations in seconds). -/
def routeTTL : List (String × ℚ) :=
  [("/api/v1/ssl", 300), ("/api/v1/http3", 120), ("/api/v1/dns", 120),
   ("/api/v1/ip", 60), ("/api/v1/my-ip", 30), ("/api/v1/web-settings", 60),
   ("/api/v1/email-config", 600), ("/api/v1/blocklist", 600),
   ("/api/v1/robots-txt", 600), ("/api/v1/sitemap", 600),
   ("/api/v1/og-image", 600)]

/-- The JSON envelope shapes `handleIP` can produce. -/
inductive IPHandlerResp
  | badRequest (msg : String)
  | ok (data : IPInfo)
deriving Repr, DecidableEq

/-- The observable outcome of one `handleIP` call: the response, the cache
afterwards, and the inputs on which the checker was invoked. -/
structure IPHandlerResult where
  response : IPHandlerResp
  cache : Cache IPInfo
  checkerCalls : List String
deriving Repr, DecidableEq

/-- `handleIP` translated from the source: the `ip` query parameter is
used when non-empty, else `domain`; both empty is a 400 with no checker
run and no cache touched; otherwise the cache key is built from the chosen
input alone, a fresh cache hit is returned as is, and a miss runs
`CheckIP` and stores the result under the route's TTL. -/
def handleIP (ipParam domainParam : String) (cache : Cache IPInfo) (now : ℚ)
    (env : IPEnv) : IPHandlerResult :=
  let input := if ipParam = "" then domainParam else ipParam
  if input = "" then
    { response := .badRequest "IP or domain parameter is required"
      cache := cache
      checkerCalls := [] }
  else
    let key := cacheKey "/api/v1/ip" [("input", input)]
    let g := cache.Get now key
    match g.1 with
    | some v => { response := .ok v, cache := g.2, checkerCalls := [] }
    | none =>
      let ipInfo := CheckIP input env
      let cache2 := match mapGet routeTTL "/api/v1/ip" with
        | some ttl => g.2.Set now key ipInfo ttl
        | none => g.2
      { response := .ok ipInfo, cache := cache2, checkerCalls := [input] }

/-- A body that parses only as a leaf urlset, with 15 entries. -/
def xmlUrlset15 : XmlBody :=
  { asIndex := .error "expected element type sitemapindex but have urlset"
    asUrlset := .ok (List.replicate 15 { Loc := "u" }) }

/-- A body that parses as a sitemap index with 3 entries. -/
def xmlIndex3 : XmlBody :=
  { asIndex := .ok (List.replicate 3 { Loc := "s" })
    asUrlset := .error "expected element type urlset but have sitemapindex" }

/-- A network in which every sitemap URL answers 200 with the 15-entry
urlset body. -/
def sitemapEnvW1 : SitemapEnv :=
  { get := fun _ => .ok { statusCode := 200, body := .ok xmlUrlset15 } }

/-- A network in which every sitemap URL answers 200 with the 3-entry
index body. -/
def sitemapEnvW2 : SitemapEnv :=
  { get := fun _ => .ok { statusCode := 200, body := .ok xmlIndex3 } }

/-- A concrete comprehensive environment. -/
def compEnvW : ComprehensiveEnv :=
  { sslWeb :=
      { newRequestErr := none
        doResult := .error "connection refused"
        responseTimeMs := 3
        now := 0 }
    sitemapEnv := { get := fun _ => .error "unreachable" }
    http3 := {}
    dns := {}
    emailConfig := {}
    robotsTxt := {}
    dCombined := 1
    dHttp3 := 1
    dDns := 1
    dEmail := 1
    dRobots := 1
    dSitemap := 1
    totalMs := 5 }

/-- The concrete environment in which `http.NewRequest` fails: a domain
with a space yields an invalid URL host. -/
def sslWebEnvBadReq : SSLWebEnv :=
  { newRequestErr := some "invalid character \" \" in host name"
    doResult := .error ""
    responseTimeMs := 0
    now := 0 }

end NetCheck

namespace NetCheck

/-- C6: the HSTS parser on `max-age=31536000; includeSubDomains; preload`
yields enabled, max-age 31536000, include-subdomains and preload all set;
on the empty header it yields a disabled report with zero max-age and both
flags cleared. -/
theorem hsts_parse_spec :
    (parseHSTSHeader "max-age=31536000; includeSubDomains; preload").Enabled = true ∧
    (parseHSTSHeader "max-age=31536000; includeSubDomains; preload").MaxAge = 31536000 ∧
    (parseHSTSHeader "max-age=31536000; includeSubDomains; preload").IncludeSubDomains = true ∧
    (parseHSTSHeader "max-age=31536000; includeSubDomains; preload").Preload = true ∧
    (parseHSTSHeader "").Enabled = false ∧
    (parseHSTSHeader "").MaxAge = 0 ∧
    (parseHSTSHeader "").IncludeSubDomains = false ∧
    (parseHSTSHeader "").Preload = false := by
  decide

/-- C3: the cache key is NOT a deterministic function of the route and the
set of parameter pairs alone — the source ranges over a Go map, whose
iteration order is unspecified, and the two iteration orders of the same
two-entry map produce different key strings. -/
theorem cacheKey_not_order_independent :
    [("a", "1"), ("b", "2")].Perm [("b", "2"), ("a", "1")] ∧
    cacheKey "/api/v1/ip" [("a", "1"), ("b", "2")] ≠
      cacheKey "/api/v1/ip" [("b", "2"), ("a", "1")] := by
  decide

theorem minFloat_le_left (a b : ℚ) : minFloat a b ≤ a := by
  unfold minFloat; split <;> linarith

theorem minFloat_le_right (a b : ℚ) : minFloat a b ≤ b := by
  unfold minFloat; split <;> linarith

theorem le_minFloat {a b c : ℚ} (ha : c ≤ a) (hb : c ≤ b) : c ≤ minFloat a b := by
  unfold minFloat; split <;> linarith

theorem refillBucket_capacity (b : tokenBucket) (now : ℚ) :
    (refillBucket b now).capacity = b.capacity := by
  unfold refillBucket; split <;> rfl

theorem refillBucket_rate (b : tokenBucket) (now : ℚ) :
    (refillBucket b now).refillRate = b.refillRate := by
  unfold refillBucket; split <;> rfl

theorem refillBucket_tokens_ge (b : tokenBucket) (now : ℚ)
    (hcap : b.tokens ≤ (b.capacity : ℚ)) (hr : 0 ≤ b.refillRate) :
    b.tokens ≤ (refillBucket b now).tokens := by
  unfold refillBucket
  split
  · next h =>
      refine le_minFloat hcap ?_
      nlinarith
  · exact le_refl _

theorem mapGet_mem {α : Type} {m : List (String × α)} {k : String} {v : α}
    (h : mapGet m k = some v) : (k, v) ∈ m := by
  induction m with
  | nil => simp [mapGet] at h
  | cons p rest ih =>
    obtain ⟨k', v'⟩ := p
    by_cases hk : k' = k
    · subst hk
      simp [mapGet] at h
      simp [h]
    · simp [mapGet, hk] at h
      exact List.mem_cons_of_mem _ (ih h)

theorem mapSet_forall {α : Type} (P : α → Prop) {m : List (String × α)}
    (k : String) {v : α} (hm : ∀ p ∈ m, P p.2) (hv : P v) :
    ∀ p ∈ mapSet m k v, P p.2 := by
  induction m with
  | nil =>
    intro p hp
    simp [mapSet] at hp
    simp [hp, hv]
  | cons q rest ih =>
    obtain ⟨k', v'⟩ := q
    intro p hp
    by_cases hk : k' = k
    · simp [mapSet, hk] at hp
      rcases hp with hp | hp
      · simp [hp, hv]
      · exact hm p (List.mem_cons_of_mem _ hp)
    · simp only [mapSet, if_neg hk, List.mem_cons] at hp
      rcases hp with hp | hp
      · exact hp ▸ hm (k', v') (List.mem_cons_self _ _)
      · exact ih (fun q hq => hm q (List.mem_cons_of_mem _ hq)) p hp

theorem allow_preserves_wf (rl : RateLimiter) (now : ℚ) (ip route : String)
    (h : ∀ p ∈ rl.buckets, bucketWF p.2) :
    ∀ p ∈ (rl.allow now ip route).2.buckets, bucketWF p.2 := by
  unfold RateLimiter.allow
  by_cases hrpm : resolveRpm rl route ≤ 0
  · simpa [hrpm] using h
  · simp only [hrpm, if_false]
    have hb : bucketWF ((mapGet rl.buckets (ip ++ "|" ++ route)).getD
        (freshBucket (resolveRpm rl route) now)) := by
      rcases hg : mapGet rl.buckets (ip ++ "|" ++ route) with _ | b
      · have hpos : (0 : ℚ) < ((resolveRpm rl route : Int) : ℚ) := by
          exact_mod_cast lt_of_not_le hrpm
        simp only [Option.getD_none, freshBucket]
        exact ⟨le_of_lt hpos, le_refl _, div_nonneg (le_of_lt hpos) (by norm_num)⟩
      · simpa using h _ (mapGet_mem hg)
    set b := (mapGet rl.buckets (ip ++ "|" ++ route)).getD
        (freshBucket (resolveRpm rl route) now) with hbdef
    have hb1 : bucketWF (refillBucket b now) := by
      unfold refillBucket
      split
      · next he =>
          obtain ⟨h0, hcap, hr⟩ := hb
          have hcap0 : (0 : ℚ) ≤ (b.capacity : ℚ) := le_trans h0 hcap
          refine ⟨?_, ?_, hr⟩
          · exact le_minFloat hcap0 (by nlinarith)
          · exact minFloat_le_left _ _
      · exact hb
    split
    · next ht =>
        intro p hp
        refine mapSet_forall bucketWF _ h ?_ p hp
        obtain ⟨h0, hcap, hr⟩ := hb1
        refine ⟨?_, ?_, by simpa using hr⟩
        · simp only [bucketWF]
          simp
          linarith
        · simp
          linarith
    · intro p hp
      exact mapSet_forall bucketWF _ h hb1 p hp

theorem runCalls_wf (calls : List (ℚ × String × String)) :
    ∀ rl : RateLimiter, (∀ p ∈ rl.buckets, bucketWF p.2) →
      ∀ p ∈ (runCalls rl calls).buckets, bucketWF p.2 := by
  induction calls with
  | nil => intro rl h; simpa [runCalls] using h
  | cons c rest ih =>
    intro rl h
    obtain ⟨t, ip, route⟩ := c
    exact ih _ (allow_preserves_wf rl t ip route h)

/-- C9: starting from a fresh rate limiter, after any sequence of `allow`
calls every bucket in the map holds between 0 and `capacity` tokens: the
refill is capped at capacity and a token is deducted only when at least one
full token is available. -/
theorem rateLimiter_tokens_in_range (dRpm : Int) (pr : List (String × Int))
    (calls : List (ℚ × String × String)) :
    ∀ p ∈ (runCalls (NewRateLimiter dRpm pr) calls).buckets,
      0 ≤ p.2.tokens ∧ p.2.tokens ≤ (p.2.capacity : ℚ) := by
  intro p hp
  have := runCalls_wf calls (NewRateLimiter dRpm pr)
    (by intro q hq; simp [NewRateLimiter] at hq) p hp
  exact ⟨this.1, this.2.1⟩

theorem allow_single (b : tokenBucket) (now : ℚ) (ip route : String) :
    (RateLimiter.mk [(ip ++ "|" ++ route, b)] [] 60).allow now ip route =
      (if (refillBucket b now).tokens ≥ 1 then
        (true, RateLimiter.mk
          [(ip ++ "|" ++ route,
            { refillBucket b now with tokens := (refillBucket b now).tokens - 1 })] [] 60)
      else
        (false, RateLimiter.mk [(ip ++ "|" ++ route, refillBucket b now)] [] 60)) := by
  unfold RateLimiter.allow resolveRpm
  norm_num [mapGet, mapSet]

theorem allow_fresh (now : ℚ) (ip route : String) :
    (NewRateLimiter 60 []).allow now ip route =
      (true, RateLimiter.mk [(ip ++ "|" ++ route, tokenBucket.mk 60 59 1 now)] [] 60) := by
  unfold RateLimiter.allow resolveRpm NewRateLimiter freshBucket refillBucket minFloat
  norm_num [mapGet, mapSet]

theorem burst_aux (ip route : String) :
    ∀ (ts : List ℚ) (b : tokenBucket) (t0 : ℚ) (m : ℕ),
      b.capacity = 60 → b.refillRate = 1 →
      (∀ t ∈ ts, b.lastRefill ≤ t ∧ t < t0 + 1) → ts.Pairwise (· ≤ ·) →
      (60 : ℚ) - m ≤ b.tokens → b.tokens ≤ 60 + (b.lastRefill - t0) - m →
      b.tokens ≤ 60 → m ≤ 60 → m + ts.length = 61 →
      (allowSeq (RateLimiter.mk [(ip ++ "|" ++ route, b)] [] 60) ip route ts).getLast? =
        some false := by
  intro ts
  induction ts with
  | nil =>
    intro b t0 m _ _ _ _ _ _ _ hm hlen
    simp at hlen
    omega
  | cons t rest ih =>
    intro b t0 m hcap hrate hts hpw hlo hhi htop hm hlen
    have hLt : b.lastRefill ≤ t := (hts t (List.mem_cons_self _ _)).1
    have ht1 : t < t0 + 1 := (hts t (List.mem_cons_self _ _)).2
    have hF : b.tokens ≤ (refillBucket b t).tokens ∧
        (refillBucket b t).tokens ≤ 60 + ((refillBucket b t).lastRefill - t0) - m ∧
        (refillBucket b t).tokens ≤ 60 ∧
        (refillBucket b t).lastRefill ≤ t := by
      unfold refillBucket
      split
      · next he =>
          have hcapQ : ((b.capacity : Int) : ℚ) = 60 := by rw [hcap]; norm_num
          simp only [hrate, hcapQ, mul_one]
          refine ⟨le_minFloat (by linarith) (by linarith), ?_, ?_, le_refl t⟩
          · have := minFloat_le_right (60 : ℚ) (b.tokens + (t - b.lastRefill))
            linarith
          · simpa using minFloat_le_left (60 : ℚ) (b.tokens + (t - b.lastRefill))
      · exact ⟨le_refl _, hhi, htop, hLt⟩
    obtain ⟨hF1, hF2, hF3, hF4⟩ := hF
    match rest, hlen with
    | [], hlen =>
      have hm60 : m = 60 := by simpa using hlen
      subst hm60
      have hrej : ¬ ((refillBucket b t).tokens ≥ 1) := by
        push_neg
        have : ((60 : ℕ) : ℚ) = 60 := by norm_num
        rw [this] at hF2
        linarith
      simp [allowSeq, allow_single, if_neg hrej]
    | t' :: rest', hlen =>
      have hm59 : m ≤ 59 := by simp at hlen; omega
      have hmQ : ((m : ℕ) : ℚ) ≤ 59 := by exact_mod_cast hm59
      have hadm : (refillBucket b t).tokens ≥ 1 := by linarith
      have hpw' := List.pairwise_cons.mp hpw
      rw [show allowSeq (RateLimiter.mk [(ip ++ "|" ++ route, b)] [] 60) ip route
            (t :: t' :: rest') =
          ((RateLimiter.mk [(ip ++ "|" ++ route, b)] [] 60).allow t ip route).1 ::
          allowSeq ((RateLimiter.mk [(ip ++ "|" ++ route, b)] [] 60).allow t ip route).2
            ip route (t' :: rest') from rfl]
      rw [allow_single b t ip route, if_pos hadm]
      simp only
      rw [show allowSeq (RateLimiter.mk
            [(ip ++ "|" ++ route,
              { refillBucket b t with tokens := (refillBucket b t).tokens - 1 })] [] 60)
            ip route (t' :: rest') =
          _ :: _ from rfl, List.getLast?_cons_cons, ← allowSeq]
      refine ih _ t0 (m + 1) (by simpa using refillBucket_capacity b t ▸ hcap) ?_ ?_ ?_ ?_ ?_ ?_ (by omega) (by simp at hlen ⊢; omega)
      · simpa using refillBucket_rate b t ▸ hrate
      · intro u hu
        have htu : t ≤ u := hpw'.1 u hu
        have := hts u (List.mem_cons_of_mem _ hu)
        exact ⟨by simpa using le_trans hF4 htu, this.2⟩
      · exact hpw'.2
      · push_cast
        linarith
      · push_cast
        linarith
      · show (refillBucket b t).tokens - 1 ≤ 60
        linarith

/-- C2: for the rate limiter at capacity 60 per minute on one
`(client-IP, route)` pair: (i) in any monotone sequence of 61 `allow`
calls all within one second of the first, the 61st call returns false;
(ii) once tokens are exhausted (any bucket state with nonnegative tokens),
an `allow` call at least one second after the last refill is admitted. -/
theorem rateLimiter_burst_and_refill (ip route : String) (ts : List ℚ)
    (hlen : ts.length = 61) (hmono : ts.Pairwise (· ≤ ·))
    (hspan : ∀ t ∈ ts, t < ts.headD 0 + 1)
    (b : tokenBucket) (now : ℚ) (hcap : b.capacity = 60) (hrate : b.refillRate = 1)
    (htok : 0 ≤ b.tokens) (hnow : b.lastRefill + 1 ≤ now) :
    (allowSeq (NewRateLimiter 60 []) ip route ts).getLast? = some false ∧
    ((RateLimiter.mk [(ip ++ "|" ++ route, b)] [] 60).allow now ip route).1 = true := by
  constructor
  · match ts, hlen with
    | t0 :: rest, hlen =>
      rw [show allowSeq (NewRateLimiter 60 []) ip route (t0 :: rest) =
          ((NewRateLimiter 60 []).allow t0 ip route).1 ::
          allowSeq ((NewRateLimiter 60 []).allow t0 ip route).2 ip route rest from rfl]
      rw [allow_fresh t0 ip route]
      simp only
      have hrest : rest ≠ [] := by
        intro h
        rw [h] at hlen
        simp at hlen
      match rest, hrest with
      | r :: rest', _ =>
        rw [show allowSeq (RateLimiter.mk
              [(ip ++ "|" ++ route, tokenBucket.mk 60 59 1 t0)] [] 60)
              ip route (r :: rest') = _ :: _ from rfl, List.getLast?_cons_cons,
            ← allowSeq]
        have hpw' := List.pairwise_cons.mp hmono
        refine burst_aux ip route (r :: rest') (tokenBucket.mk 60 59 1 t0) t0 1
          rfl rfl ?_ hpw'.2 (by norm_num) (by norm_num) (by norm_num) (by norm_num)
          (by simp at hlen ⊢; omega)
        intro u hu
        exact ⟨hpw'.1 u hu, by simpa using hspan u (List.mem_cons_of_mem _ hu)⟩
  · have h1 : (refillBucket b now).tokens ≥ 1 := by
      unfold refillBucket
      have he : now - b.lastRefill > 0 := by linarith
      rw [if_pos he]
      have hcapQ : ((b.capacity : Int) : ℚ) = 60 := by rw [hcap]; norm_num
      simp only [hrate, hcapQ, mul_one]
      exact le_minFloat (by norm_num) (by linarith)
    rw [allow_single b now ip route, if_pos h1]

/-- Witness for C2: 61 calls at time 0 (the 61st is rejected), and an
exhausted bucket refilled after one second admits a call. -/
theorem rateLimiter_burst_and_refill_witness :
    (allowSeq (NewRateLimiter 60 []) "1.2.3.4" "/api/v1/ssl"
        (List.replicate 61 0)).getLast? = some false ∧
    ((RateLimiter.mk [("1.2.3.4" ++ "|" ++ "/api/v1/ssl", tokenBucket.mk 60 0 1 0)] [] 60).allow
        1 "1.2.3.4" "/api/v1/ssl").1 = true :=
  rateLimiter_burst_and_refill "1.2.3.4" "/api/v1/ssl" (List.replicate 61 0)
    (by simp) (by decide) (by simp) (tokenBucket.mk 60 0 1 0) 1 rfl rfl (by norm_num)
    (by norm_num)

theorem ipv4Fields_chars (l : List Char) : ∀ (v d p : Nat),
    ipv4Fields l v d p = true → ∀ c ∈ l, ('0' ≤ c ∧ c ≤ '9') ∨ c = '.' := by
  induction l with
  | nil => intro v d p _ c hc; cases hc
  | cons a rest ih =>
    intro v d p h c hc
    rw [ipv4Fields] at h
    by_cases hd : '0' ≤ a ∧ a ≤ '9'
    · rw [if_pos hd] at h
      rcases List.mem_cons.mp hc with rfl | hc'
      · exact Or.inl hd
      · split_ifs at h
        exact ih _ _ _ h c hc'
    · rw [if_neg hd] at h
      by_cases hdot : a = '.'
      · rw [if_pos hdot] at h
        rcases List.mem_cons.mp hc with rfl | hc'
        · exact Or.inr hdot
        · split_ifs at h
          exact ih _ _ _ h c hc'
      · rw [if_neg hdot] at h
        cases h

theorem takeHex_chars (l : List Char) : ∀ (acc off a o : Nat) (rest : List Char),
    takeHex l acc off = some (a, o, rest) →
    ∀ c ∈ l, c ∈ rest ∨ (hexVal c).isSome := by
  induction l with
  | nil => intro acc off a o rest _ c hc; cases hc
  | cons hd tl ih =>
    intro acc off a o rest h c hc
    rw [takeHex] at h
    rcases hh : hexVal hd with _ | d
    · rw [hh] at h
      replace h : some (acc, off, hd :: tl) = some (a, o, rest) := h
      simp only [Option.some.injEq] at h
      obtain ⟨-, -, rfl⟩ := h
      exact Or.inl hc
    · rw [hh] at h
      replace h : (if acc * 16 + d > 65535 then none
          else takeHex tl (acc * 16 + d) (off + 1)) = some (a, o, rest) := h
      split_ifs at h
      rcases List.mem_cons.mp hc with rfl | hc'
      · exact Or.inr (by simp [hh])
      · exact ih _ _ _ _ _ h c hc'

theorem ipv6Loop_chars : ∀ (fuel : Nat) (s : List Char) (i : Nat) (ell : Bool)
    (i' : Nat) (ell' : Bool), ipv6Loop fuel s i ell = some ([], i', ell') →
    ∀ c ∈ s, c ≠ '/' := by
  intro fuel
  induction fuel with
  | zero => intro s i ell i' ell' h; cases h
  | succ fuel ih =>
    intro s i ell i' ell' h c hc
    rw [ipv6Loop] at h
    by_cases h16 : 16 ≤ i
    · rw [if_pos h16] at h
      replace h : some (s, i, ell) = some ([], i', ell') := h
      simp only [Option.some.injEq, Prod.mk.injEq] at h
      obtain ⟨h1, -⟩ := h
      subst h1
      cases hc
    · rw [if_neg h16] at h
      rcases hth : takeHex s 0 0 with _ | ⟨acc, off, rest⟩
      · rw [hth] at h; cases h
      · rw [hth] at h
        replace h : (if off = 0 then none
            else
              match rest with
              | [] => some ([], i + 2, ell)
              | r0 :: rest1 =>
                if r0 = '.' then
                  if (!ell) ∧ i ≠ 12 then none
                  else if i + 4 > 16 then none
                  else if ipv4Fields s 0 0 0 then some ([], i + 4, ell) else none
                else if r0 = ':' then
                  match rest1 with
                  | [] => none
                  | r1 :: rest2 =>
                    if r1 = ':' then
                      if ell then none
                      else
                        match rest2 with
                        | [] => some ([], i + 2, true)
                        | _ => ipv6Loop fuel rest2 (i + 2) true
                    else ipv6Loop fuel rest1 (i + 2) ell
                else none) = some ([], i', ell') := h
        by_cases hoff : off = 0
        · rw [if_pos hoff] at h; cases h
        · rw [if_neg hoff] at h
          rcases takeHex_chars s 0 0 acc off rest hth c hc with hcr | hhex
          · rcases rest with _ | ⟨r0, rest1⟩
            · cases hcr
            · by_cases hr0 : r0 = '.'
              · replace h : (if r0 = '.' then
                      if (!ell) ∧ i ≠ 12 then none
                      else if i + 4 > 16 then none
                      else if ipv4Fields s 0 0 0 then some ([], i + 4, ell) else none
                    else if r0 = ':' then
                      match rest1 with
                      | [] => none
                      | r1 :: rest2 =>
                        if r1 = ':' then
                          if ell then none
                          else
                            match rest2 with
                            | [] => some ([], i + 2, true)
                            | _ => ipv6Loop fuel rest2 (i + 2) true
                        else ipv6Loop fuel rest1 (i + 2) ell
                    else none) = some ([], i', ell') := h
                rw [if_pos hr0] at h
                by_cases h1 : (!ell) ∧ i ≠ 12
                · rw [if_pos h1] at h; exact Option.noConfusion h
                · rw [if_neg h1] at h
                  by_cases h2 : i + 4 > 16
                  · rw [if_pos h2] at h; exact Option.noConfusion h
                  · rw [if_neg h2] at h
                    by_cases h3 : ipv4Fields s 0 0 0 = true
                    · intro hslash
                      have hch := ipv4Fields_chars s 0 0 0 h3 c hc
                      rw [hslash] at hch
                      rcases hch with ⟨hle, -⟩ | hq
                      · revert hle; decide
                      · exact absurd hq (by decide)
                    · rw [if_neg h3] at h; exact Option.noConfusion h
              · replace h : (if r0 = '.' then
                      if (!ell) ∧ i ≠ 12 then none
                      else if i + 4 > 16 then none
                      else if ipv4Fields s 0 0 0 then some ([], i + 4, ell) else none
                    else if r0 = ':' then
                      match rest1 with
                      | [] => none
                      | r1 :: rest2 =>
                        if r1 = ':' then
                          if ell then none
                          else
                            match rest2 with
                            | [] => some ([], i + 2, true)
                            | _ => ipv6Loop fuel rest2 (i + 2) true
                        else ipv6Loop fuel rest1 (i + 2) ell
                    else none) = some ([], i', ell') := h
                rw [if_neg hr0] at h
                by_cases hr0c : r0 = ':'
                · rw [if_pos hr0c] at h
                  rcases rest1 with _ | ⟨r1, rest2⟩
                  · exact Option.noConfusion h
                  · replace h : (if r1 = ':' then
                          if ell then none
                          else
                            match rest2 with
                            | [] => some ([], i + 2, true)
                            | _ => ipv6Loop fuel rest2 (i + 2) true
                        else ipv6Loop fuel (r1 :: rest2) (i + 2) ell) =
                        some ([], i', ell') := h
                    by_cases hr1 : r1 = ':'
                    · rw [if_pos hr1] at h
                      by_cases hell : ell
                      · rw [if_pos hell] at h; exact Option.noConfusion h
                      · rw [if_neg hell] at h
                        rcases List.mem_cons.mp hcr with rfl | hcr1
                        · rw [hr0c]; decide
                        · rcases List.mem_cons.mp hcr1 with rfl | hcr2
                          · rw [hr1]; decide
                          · rcases rest2 with _ | ⟨r2, rest3⟩
                            · cases hcr2
                            · exact ih _ _ _ _ _ h c hcr2
                    · rw [if_neg hr1] at h
                      rcases List.mem_cons.mp hcr with rfl | hcr1
                      · rw [hr0c]; decide
                      · exact ih _ _ _ _ _ h c hcr1
                · rw [if_neg hr0c] at h
                  exact Option.noConfusion h
          · intro hslash
            rw [hslash] at hhex
            exact absurd hhex (by decide)

theorem ipv6Finish_eq {o : Option (List Char × Nat × Bool)} (h : ipv6Finish o = true) :
    ∃ i ell, o = some ([], i, ell) := by
  rcases o with _ | ⟨s, i, ell⟩
  · cases h
  · rw [ipv6Finish, Bool.and_eq_true] at h
    exact ⟨i, ell, by rw [of_decide_eq_true h.1]⟩

theorem parseIPv6Chars_chars (l : List Char) (h : parseIPv6Chars l = true) :
    ∀ c ∈ l, c ≠ '/' := by
  rw [parseIPv6Chars] at h
  by_cases hpc : l.contains '%'
  · rw [if_pos hpc] at h; cases h
  · rw [if_neg hpc] at h
    by_cases hcc : 2 ≤ l.length ∧ l.headD ' ' = ':' ∧ l.tail.headD ' ' = ':'
    · rw [if_pos hcc] at h
      by_cases hdrop : l.drop 2 = []
      · rcases l with _ | ⟨c0, _ | ⟨c1, rest⟩⟩
        · intro c hc; cases hc
        · exact absurd hcc (by simp)
        · obtain ⟨-, h0, h1⟩ := hcc
          replace h0 : c0 = ':' := h0
          replace h1 : c1 = ':' := h1
          replace hdrop : rest = [] := hdrop
          subst hdrop
          intro c hc
          rcases List.mem_cons.mp hc with rfl | hc1
          · rw [h0]; decide
          · rcases List.mem_cons.mp hc1 with rfl | hc2
            · rw [h1]; decide
            · cases hc2
      · rw [if_neg hdrop] at h
        obtain ⟨i, ell, he⟩ := ipv6Finish_eq h
        have htail := ipv6Loop_chars 16 (l.drop 2) 0 true i ell he
        rcases l with _ | ⟨c0, _ | ⟨c1, rest⟩⟩
        · intro c hc; cases hc
        · exact absurd hcc (by simp)
        · obtain ⟨-, h0, h1⟩ := hcc
          replace h0 : c0 = ':' := h0
          replace h1 : c1 = ':' := h1
          intro c hc
          rcases List.mem_cons.mp hc with rfl | hc1
          · rw [h0]; decide
          · rcases List.mem_cons.mp hc1 with rfl | hc2
            · rw [h1]; decide
            · exact htail c hc2
    · rw [if_neg hcc] at h
      obtain ⟨i, ell, he⟩ := ipv6Finish_eq h
      exact ipv6Loop_chars 16 l 0 false i ell he

theorem isIPAddress_chars (s : String) (h : isIPAddress s = true) :
    '/' ∉ s.toList := by
  rw [isIPAddress] at h
  rcases hfs : firstSpecial s.toList with _ | c
  · rw [hfs] at h; cases h
  · rw [hfs] at h
    replace h : (if c = '.' then ipv4Fields s.toList 0 0 0
        else if c = ':' then parseIPv6Chars s.toList else false) = true := h
    intro hmem
    by_cases hdot : c = '.'
    · rw [if_pos hdot] at h
      rcases ipv4Fields_chars s.toList 0 0 0 h '/' hmem with ⟨hle, _⟩ | hq
      · revert hle; decide
      · cases hq
    · rw [if_neg hdot] at h
      by_cases hcol : c = ':'
      · rw [if_pos hcol] at h
        exact parseIPv6Chars_chars s.toList h '/' hmem rfl
      · rw [if_neg hcol] at h; cases h

theorem takeUntilSlash_id {l : List Char} (h : '/' ∉ l) : takeUntilSlash l = l := by
  induction l with
  | nil => rfl
  | cons c rest ih =>
    rw [takeUntilSlash]
    rw [if_neg (by intro hq; exact h (hq ▸ List.mem_cons_self c rest))]
    rw [ih (fun hq => h (List.mem_cons_of_mem _ hq))]

theorem goTrim_id {l pre : List Char} (hpre : '/' ∈ pre) (h : '/' ∉ l) :
    goTrim l pre = l := by
  rw [goTrim]
  rw [if_neg ?_]
  intro hp
  exact h ((List.isPrefixOf_iff_prefix.mp hp).subset hpre)

theorem cleanHost_id {s : String} (h : '/' ∉ s.toList) : cleanHost s = s := by
  rw [cleanHost, goTrim_id (by decide) h, goTrim_id (by decide) h, takeUntilSlash_id h]
  rfl

/-- C7: (i) for every input that parses as a literal IP address, `CheckIP`
reports `is_domain = false` and echoes the input as the IP; (ii) for every
slash-free hostname input whose resolution yields at least one IPv4
address, `CheckIP` reports `is_domain = true` and the primary IP is the
first IPv4 address of the resolved list. -/
theorem checkIP_spec (input : String) (env : IPEnv) (ips : List GoIP) :
    (isIPAddress input = true →
      (CheckIP input env).IsDomain = false ∧ (CheckIP input env).IP = input) ∧
    ('/' ∉ input.toList → isIPAddress input = false →
      env.lookupIP input = .ok ips →
      ∀ v rest, (ips.filter (fun ip => ip.isV4)).map (fun ip => ip.str) = v :: rest →
        (CheckIP input env).IsDomain = true ∧ (CheckIP input env).IP = v ∧
          (CheckIP input env).ResolvedIPs = v :: rest) := by
  constructor
  · intro hip
    have hcl : cleanHost input = input := cleanHost_id (isIPAddress_chars input hip)
    constructor <;> simp [CheckIP, hcl, hip]
  · intro hsl hip hlook v rest hres
    have hcl : cleanHost input = input := cleanHost_id hsl
    refine ⟨?_, ?_, ?_⟩ <;> simp [CheckIP, hcl, hip, hlook, hres]

/-- Witness for C7: a literal IPv4 input and a hostname resolving to one
IPv4 address. -/
theorem checkIP_spec_witness :
    ((CheckIP "1.2.3.4" ipEnvW).IsDomain = false ∧
      (CheckIP "1.2.3.4" ipEnvW).IP = "1.2.3.4") ∧
    ((CheckIP "example.com" ipEnvW).IsDomain = true ∧
      (CheckIP "example.com" ipEnvW).IP = "93.184.216.34" ∧
      (CheckIP "example.com" ipEnvW).ResolvedIPs = ["93.184.216.34"]) :=
  ⟨(checkIP_spec "1.2.3.4" ipEnvW []).1 (by decide),
   (checkIP_spec "example.com" ipEnvW [{ str := "93.184.216.34", isV4 := true }]).2
     (by decide) (by decide) rfl "93.184.216.34" [] rfl⟩

/-- Witness for C9 at a concrete call sequence. -/
theorem rateLimiter_tokens_in_range_witness :
    0 ≤ (tokenBucket.mk 60 59 1 0).tokens ∧
      (tokenBucket.mk 60 59 1 0).tokens ≤ ((tokenBucket.mk 60 59 1 0).capacity : ℚ) :=
  rateLimiter_tokens_in_range 60 [] [(0, "a", "/r")]
    ("a" ++ "|" ++ "/r", tokenBucket.mk 60 59 1 0)
    (by
      rw [show runCalls (NewRateLimiter 60 []) [((0 : ℚ), "a", "/r")] =
          ((NewRateLimiter 60 []).allow 0 "a" "/r").2 from rfl,
        allow_fresh 0 "a" "/r"]
      simp)


theorem toListAppend (a b : String) : (a ++ b).toList = a.toList ++ b.toList := rfl

theorem goHasPre_append (pre x : String) : goHasPre (pre ++ x) pre = true := by
  rw [goHasPre, toListAppend, List.isPrefixOf_iff_prefix]
  exact List.prefix_append _ _

theorem goTrimStr_append (pre x : String) :
    String.mk (goTrim (pre ++ x).toList pre.toList) = x := by
  rw [goTrim, toListAppend,
    if_pos (List.isPrefixOf_iff_prefix.mpr (List.prefix_append _ _)),
    List.drop_left]
  rfl

/-- C4: refuted by the request-creation failure path of
`CheckSSLAndWebSettings`: when `http.NewRequest` rejects the URL (here: a
space in the host), both reports carry the error but neither `Domain`
field is populated. -/
theorem combined_domain_unpopulated :
    ((CheckSSLAndWebSettings "exa mple.com" sslWebEnvBadReq).SSL.Domain = "" ∧
      (CheckSSLAndWebSettings "exa mple.com" sslWebEnvBadReq).WebSettings.Domain = "") ∧
    ((CheckSSLAndWebSettings "exa mple.com" sslWebEnvBadReq).SSL.Error ≠ "" ∧
      (CheckSSLAndWebSettings "exa mple.com" sslWebEnvBadReq).WebSettings.Error ≠ "") := by
  decide

/-- C5 counterexample: after the https→http fallback the page URL carries
the http scheme, yet an absolute-path image URL is resolved to an https
URL on the host — not to the page's own scheme as claimed. -/
theorem ogImage_scheme_cex :
    ogResolvedImage "example.com"
        { httpsErr := some "connection refused", httpErr := none } "/img.png" =
      some "https://example.com/img.png" ∧
    some "https://example.com/img.png" ≠ some "http://example.com/img.png" := by
  decide

/-- C5 amended: in the Open Graph check (page fetched over http after the
https fallback), a protocol-relative image URL gets the literal `https:`
scheme, an absolute-path image URL is joined to `https://` plus the page's
cleaned host (regardless of the scheme the page was fetched over), and
only a bare relative image URL is joined to the page URL as actually
fetched, thereby inheriting its http scheme. -/
theorem ogImage_resolution_amended (url e imageURL : String)
    (hns : goHasPre url "https://" = false) (hnh : goHasPre url "http://" = false) :
    (goHasPre imageURL "//" = true →
      ogResolvedImage url ⟨some e, none⟩ imageURL = some ("https:" ++ imageURL)) ∧
    (goHasPre imageURL "//" = false → goHasPre imageURL "/" = true →
      ogResolvedImage url ⟨some e, none⟩ imageURL =
        some ("https://" ++ cleanHost ("https://" ++ url) ++ imageURL)) ∧
    (goHasPre imageURL "//" = false → goHasPre imageURL "/" = false →
      goHasPre imageURL "http://" = false → goHasPre imageURL "https://" = false →
      ogResolvedImage url ⟨some e, none⟩ imageURL =
        some (if goHasSuf ("http://" ++ url) "/" then ("http://" ++ url) ++ imageURL
          else ("http://" ++ url) ++ "/" ++ imageURL)) := by
  have htarget : ensureScheme url = "https://" ++ url := by
    rw [ensureScheme, if_pos]
    constructor <;> simp [hns, hnh]
  have hpre : goHasPre (ensureScheme url) "https://" = true := by
    rw [htarget]; exact goHasPre_append _ _
  have htrim : String.mk (goTrim ("https://" ++ url).toList "https://".toList) = url :=
    goTrimStr_append _ _
  refine ⟨?_, ?_, ?_⟩
  · intro h1
    simp only [ogResolvedImage, hpre, if_true, htrim, resolveImageURL, h1]
  · intro h1 h2
    simp only [ogResolvedImage, hpre, if_true, htrim, resolveImageURL, h1, h2, htarget,
      goHasPre_append, Bool.false_eq_true, if_false]
  · intro h1 h2 h3 h4
    simp only [ogResolvedImage, hpre, if_true, htrim, resolveImageURL, h1, h2, h3, h4,
      htarget, goHasPre_append, Bool.false_eq_true, if_false, not_false_eq_true, and_self]

/-- Witness for the amended C5 at a concrete page and the three relative
image URL shapes. -/
theorem ogImage_resolution_amended_witness :
    (ogResolvedImage "example.com" ⟨some "refused", none⟩ "//c.example.com/a.png" =
      some ("https:" ++ "//c.example.com/a.png")) ∧
    (ogResolvedImage "example.com" ⟨some "refused", none⟩ "/img.png" =
      some ("https://" ++ cleanHost ("https://" ++ "example.com") ++ "/img.png")) ∧
    (ogResolvedImage "example.com" ⟨some "refused", none⟩ "img.png" =
      some (if goHasSuf ("http://" ++ "example.com") "/" then
          ("http://" ++ "example.com") ++ "img.png"
        else ("http://" ++ "example.com") ++ "/" ++ "img.png")) :=
  ⟨(ogImage_resolution_amended "example.com" "refused" "//c.example.com/a.png"
      (by decide) (by decide)).1 (by decide),
   (ogImage_resolution_amended "example.com" "refused" "/img.png"
      (by decide) (by decide)).2.1 (by decide) (by decide),
   (ogImage_resolution_amended "example.com" "refused" "img.png"
      (by decide) (by decide)).2.2 (by decide) (by decide) (by decide) (by decide)⟩


theorem checkSitemap_loop_first (domain : String) (env : SitemapEnv) (r : FetchResp)
    (hget : env.get ("https://" ++ cleanHost domain ++ "/sitemap.xml") = .ok r)
    (hst : r.statusCode = 200) :
    sitemapLoop (cleanHost domain) env sitemapPaths (.error "") =
      (some ("https://" ++ cleanHost domain ++ "/sitemap.xml"), .ok r) := by
  simp [sitemapPaths, sitemapLoop, hget, attemptOk, hst]

/-- C8: for a sitemap fetched with HTTP 200 from the first candidate
location, (i) a body that parses as a leaf urlset with 15 url entries
(and not as a nonempty index) yields `url_count = 15` and `sample_urls`
equal to the first 10 locations, of length exactly 10; (ii) a body that
parses as a sitemapindex with 3 entries yields `is_sitemap_index = true`,
`url_count = 3` and 3 sub-sitemaps. -/
theorem checkSitemap_spec (domain : String) (env : SitemapEnv) (b : XmlBody)
    (r : FetchResp)
    (hget : env.get ("https://" ++ cleanHost domain ++ "/sitemap.xml") = .ok r)
    (hst : r.statusCode = 200) (hbody : r.body = .ok b) :
    (∀ us, b.asUrlset = .ok us → us.length = 15 →
      (∀ es, b.asIndex = .ok es → es = []) →
      (CheckSitemap domain env).URLCount = 15 ∧
      (CheckSitemap domain env).SampleURLs = (us.take 10).map (fun u => u.Loc) ∧
      (CheckSitemap domain env).SampleURLs.length = 10) ∧
    (∀ es, b.asIndex = .ok es → es.length = 3 →
      (CheckSitemap domain env).IsSitemapIndex = true ∧
      (CheckSitemap domain env).URLCount = 3 ∧
      (CheckSitemap domain env).SubSitemaps.length = 3) := by
  have hloop := checkSitemap_loop_first domain env r hget hst
  constructor
  · intro us hus hlen hidx
    rcases us with _ | ⟨u0, us'⟩
    · cases hlen
    · have hfall : CheckSitemap domain env =
          sitemapParseUrlset
            { Domain := domain
              SitemapURL := "https://" ++ cleanHost domain ++ "/sitemap.xml"
              Exists := true
              Status := "HTTP " ++ toString r.statusCode } b := by
        rcases hai : b.asIndex with e | es
        · simp only [CheckSitemap, hloop, hbody, hai, Option.getD]
        · have hes : es = [] := hidx es hai
          subst hes
          simp only [CheckSitemap, hloop, hbody, hai, Option.getD]
      refine ⟨?_, ?_, ?_⟩
      · rw [hfall]
        simp only [sitemapParseUrlset, hus]
        exact_mod_cast hlen
      · rw [hfall]
        simp only [sitemapParseUrlset, hus]
      · rw [hfall]
        simp only [sitemapParseUrlset, hus, List.length_map, List.length_take, hlen]
        decide
  · intro es hai hlen
    rcases es with _ | ⟨e0, es'⟩
    · cases hlen
    · refine ⟨?_, ?_, ?_⟩
      · simp only [CheckSitemap, hloop, hbody, hai]
      · simp only [CheckSitemap, hloop, hbody, hai]
        exact_mod_cast hlen
      · simp only [CheckSitemap, hloop, hbody, hai, List.length_map, hlen]

/-- Witness for C8: a 15-entry urlset body and a 3-entry index body. -/
theorem checkSitemap_spec_witness :
    ((CheckSitemap "example.com" sitemapEnvW1).URLCount = 15 ∧
      (CheckSitemap "example.com" sitemapEnvW1).SampleURLs =
        (((List.replicate 15 ({ Loc := "u" } : SitemapURL)).take 10).map (fun u => u.Loc)) ∧
      (CheckSitemap "example.com" sitemapEnvW1).SampleURLs.length = 10) ∧
    ((CheckSitemap "example.com" sitemapEnvW2).IsSitemapIndex = true ∧
      (CheckSitemap "example.com" sitemapEnvW2).URLCount = 3 ∧
      (CheckSitemap "example.com" sitemapEnvW2).SubSitemaps.length = 3) :=
  ⟨(checkSitemap_spec "example.com" sitemapEnvW1 xmlUrlset15
      { statusCode := 200, body := .ok xmlUrlset15 } rfl rfl rfl).1
      (List.replicate 15 { Loc := "u" }) rfl (by simp)
      (fun es h => Except.noConfusion h),
   (checkSitemap_spec "example.com" sitemapEnvW2 xmlIndex3
      { statusCode := 200, body := .ok xmlIndex3 } rfl rfl rfl).2
      (List.replicate 3 { Loc := "s" }) rfl (by simp)⟩

theorem mapSet_keys_new {α : Type} (m : List (String × α)) (k : String) (v : α)
    (h : k ∉ m.map Prod.fst) :
    (mapSet m k v).map Prod.fst = m.map Prod.fst ++ [k] := by
  induction m with
  | nil => rfl
  | cons p rest ih =>
    obtain ⟨k', v'⟩ := p
    have hne : k' ≠ k := fun he => h (by simp [← he])
    rw [mapSet, if_neg hne]
    simp only [List.map_cons, List.cons_append]
    rw [ih (fun hm => h (by simp [hm]))]

theorem foldl_pair_fst (entries : List (String × CheckData × Int)) :
    ∀ (a : List (String × CheckData)) (t : List (String × Int)),
      (entries.foldl
        (fun (acc : List (String × CheckData) × List (String × Int)) e =>
          (mapSet acc.1 e.1 e.2.1, mapSet acc.2 e.1 e.2.2)) (a, t)).1
        = entries.foldl (fun m e => mapSet m e.1 e.2.1) a := by
  induction entries with
  | nil => intro a t; rfl
  | cons e rest ih => intro a t; exact ih _ _

theorem foldl_mapSet_keys (entries : List (String × CheckData × Int)) :
    ∀ (m : List (String × CheckData)),
      (m.map Prod.fst ++ entries.map Prod.fst).Nodup →
      ((entries.foldl (fun m e => mapSet m e.1 e.2.1) m).map Prod.fst)
        = m.map Prod.fst ++ entries.map Prod.fst := by
  induction entries with
  | nil => intro m _; simp
  | cons e rest ih =>
    intro m h
    have hk : e.1 ∉ m.map Prod.fst := by
      intro hm
      exact (List.nodup_append.mp h).2.2 hm (by simp)
    have hkeys := mapSet_keys_new m e.1 e.2.1 hk
    have hnd : ((mapSet m e.1 e.2.1).map Prod.fst ++ rest.map Prod.fst).Nodup := by
      rw [hkeys, List.append_assoc]
      simpa using h
    simp only [List.foldl_cons]
    rw [ih _ hnd, hkeys, List.append_assoc]
    simp

/-- C1: the comprehensive handler consumes exactly 7 result entries (the
combined SSL+WebSettings task emits two, the other five tasks one each),
and in any channel consumption order, for any outcomes of the individual
checks, the merged map holds exactly the keys ssl, http3, dns,
web_settings, email_config, robots_txt, sitemap and _meta. -/
theorem comprehensive_keys (domain : String) (env : ComprehensiveEnv)
    (entries : List (String × CheckData × Int))
    (hperm : entries.Perm (comprehensiveEmissions domain env)) :
    entries.length = 7 ∧
    ((handleComprehensiveCollect domain entries env.totalMs).map Prod.fst).Perm
      ["ssl", "http3", "dns", "web_settings", "email_config", "robots_txt",
        "sitemap", "_meta"] := by
  have hlen : entries.length = 7 := by
    rw [hperm.length_eq]; rfl
  refine ⟨hlen, ?_⟩
  have hek : (comprehensiveEmissions domain env).map Prod.fst =
      ["ssl", "web_settings", "http3", "dns", "email_config", "robots_txt",
        "sitemap"] := rfl
  have hkp : (entries.map Prod.fst).Perm
      ["ssl", "web_settings", "http3", "dns", "email_config", "robots_txt",
        "sitemap"] := by
    rw [← hek]; exact hperm.map Prod.fst
  have hnodup : (entries.map Prod.fst).Nodup := hkp.nodup_iff.mpr (by decide)
  have hmeta : "_meta" ∉ entries.map Prod.fst := by
    intro hm
    exact absurd (hkp.mem_iff.mp hm) (by decide)
  have hfk : (entries.foldl (fun m e => mapSet m e.1 e.2.1)
      ([] : List (String × CheckData))).map Prod.fst = entries.map Prod.fst := by
    have := foldl_mapSet_keys entries [] (by simpa using hnodup)
    simpa using this
  have hfinal : ((handleComprehensiveCollect domain entries env.totalMs).map Prod.fst)
      = entries.map Prod.fst ++ ["_meta"] := by
    simp only [handleComprehensiveCollect]
    rw [foldl_pair_fst, mapSet_keys_new _ _ _ (by rw [hfk]; exact hmeta), hfk]
  rw [hfinal]
  exact (hkp.append_right ["_meta"]).trans (by decide)

/-- Witness for C1 at a concrete domain, environment and the channel
order equal to the send order. -/
theorem comprehensive_keys_witness :
    (comprehensiveEmissions "example.com" compEnvW).length = 7 ∧
    ((handleComprehensiveCollect "example.com"
        (comprehensiveEmissions "example.com" compEnvW) compEnvW.totalMs).map
      Prod.fst).Perm
      ["ssl", "http3", "dns", "web_settings", "email_config", "robots_txt",
        "sitemap", "_meta"] :=
  comprehensive_keys "example.com" compEnvW _ (List.Perm.refl _)

/-- C10: the IP handler prefers the `ip` query parameter: when it is
non-empty the result does not depend on the `domain` parameter at all
(response, cache and cache key alike), and on a cache miss the checker is
invoked exactly once, on the `ip` value. -/
theorem handleIP_precedence (ipParam d d' : String) (cache : Cache IPInfo) (now : ℚ)
    (env : IPEnv) (h : ipParam ≠ "") :
    handleIP ipParam d cache now env = handleIP ipParam d' cache now env ∧
    ((cache.Get now (cacheKey "/api/v1/ip" [("input", ipParam)])).1 = none →
      (handleIP ipParam d cache now env).checkerCalls = [ipParam] ∧
      (handleIP ipParam d cache now env).response = .ok (CheckIP ipParam env)) := by
  have hinput : (if ipParam = "" then d else ipParam) = ipParam := if_neg h
  have hinput' : (if ipParam = "" then d' else ipParam) = ipParam := if_neg h
  constructor
  · simp only [handleIP, hinput, hinput']
  · intro hmiss
    constructor <;> simp only [handleIP, hinput, if_neg h, hmiss]

/-- Witness for C10 with both parameters supplied and an empty cache. -/
theorem handleIP_precedence_witness :
    (handleIP "1.2.3.4" "a.example" (Cache.mk []) 0 ipEnvW =
      handleIP "1.2.3.4" "b.example" (Cache.mk []) 0 ipEnvW) ∧
    ((handleIP "1.2.3.4" "a.example" (Cache.mk []) 0 ipEnvW).checkerCalls =
        ["1.2.3.4"] ∧
      (handleIP "1.2.3.4" "a.example" (Cache.mk []) 0 ipEnvW).response =
        .ok (CheckIP "1.2.3.4" ipEnvW)) :=
  ⟨(handleIP_precedence "1.2.3.4" "a.example" "b.example" (Cache.mk []) 0 ipEnvW
      (by decide)).1,
   (handleIP_precedence "1.2.3.4" "a.example" "b.example" (Cache.mk []) 0 ipEnvW
      (by decide)).2 rfl⟩

end NetCheck
